import Mathlib

/-!
Shallow embedding of the query-language engine of `tri.query`
(`src/lib/tri/query/__init__.py`): field (Variable) declarations, the
pyparsing grammar, and the compilation of parsed queries into Django
`Q` predicate trees.  Predicates are modelled as an inductive tree
(`Q`), fallible Python code as `Except QErr`, and the pyparsing parser
as an explicit character-list parser with pyparsing's backtracking
semantics (syntactic failure backtracks, an exception raised from a
parse action aborts the whole parse).
-/

/-- The Python value stored in a `Q(**{key: value})` keyword argument:
`None`, a string (a plain `str` or a `StringValue`, which compare equal
as strings), an int, a float (kept as its literal text, never computed
with), a `datetime.date`, or a Django `F(attr)` reference. -/
inductive QVal where
  | vNone : QVal
  | vStr : String → QVal
  | vInt : Int → QVal
  | vReal : String → QVal
  | vDate : Nat → Nat → Nat → QVal
  | vF : Option String → QVal
deriving DecidableEq, Repr

/-- Django `Q` objects as seen by this library: an opaque boolean
predicate tree.  `Q.empty` is `Q()` (the match-everything identity);
`Q.filter k v` is `Q(**{k: v})`; `and`, `or`, `not` are the `&`, `|`,
`~` compositions. -/
inductive Q where
  | empty : Q
  | filter : String → QVal → Q
  | and : Q → Q → Q
  | or : Q → Q → Q
  | not : Q → Q
deriving DecidableEq, Repr

/-- A parsed `value_string` as handed to `binary_op_as_q`: an unquoted
(dotted) identifier (a plain `str`), a quoted string (a `StringValue`,
quotes already stripped by its constructor), an int, a float (literal
text), a date, or the `F` reference substituted in by
`binary_op_as_q`. -/
inductive PValue where
  | ident : String → PValue
  | quoted : String → PValue
  | int : Int → PValue
  | real : String → PValue
  | date : Nat → Nat → Nat → PValue
  | f : Option String → PValue
deriving DecidableEq, Repr

/-- The exceptions the Python code can raise while parsing/compiling.
`invalidSyntax` is `QueryException('Invalid syntax for query')` (raised
for a pyparsing `ParseException`); `unknownVariable`/`unknownValue` are
the two other `QueryException`s raised by `binary_op_as_q`
(`unknownValue` carries the offending value and the variable name, as
the Python message interpolates both);
`assertionError`, `keyError`, `valueError`, `typeError`, `indexError`
are the corresponding Python built-in exceptions. -/
inductive QErr where
  | invalidSyntax : QErr
  | unknownVariable : String → QErr
  | unknownValue : PValue → String → QErr
  | assertionError : QErr
  | keyError : QErr
  | valueError : QErr
  | typeError : QErr
  | indexError : QErr
deriving DecidableEq, Repr

/-- `Q_OP_BY_OP`: the module-level operator → Django lookup-suffix map.
`none` models a Python `KeyError` on an absent key. -/
def Q_OP_BY_OP : String → Option String
  | ">" => some "gt"
  | "=>" => some "gte"
  | ">=" => some "gte"
  | "<" => some "lt"
  | "<=" => some "lte"
  | "=<" => some "lte"
  | "=" => some "iexact"
  | ":" => some "icontains"
  | _ => none

/-- `PRECEDENCE`: the module-level connective-precedence map. -/
def PRECEDENCE : String → Option Nat
  | "and" => some 3
  | "or" => some 2
  | _ => none

/-- The fields of a `Variable` (a `VariableBase` named struct) that the
compilation path reads: `name`, `attr` (`none` models Python `None`),
`gui_op`, `op_to_q_op` (`none` result models a `KeyError`), `freetext`
and `value_to_q_lookup`.  The `value_to_q` function itself lives one
level up in `Variable`, since in Python it receives the variable as an
argument.  Defaults are the `NamedStructField` defaults (with
`default_value_to_q`'s map for `op_to_q_op`). -/
structure VariableCore where
  name : String
  attr : Option String
  gui_op : String := "="
  op_to_q_op : String → Option String := fun op => Q_OP_BY_OP op
  freetext : Bool := false
  value_to_q_lookup : Option String := none

/-- The `Q` keyword-argument value for a parsed value: strings
(quoted or not) are the Python string itself, other values pass
through. -/
def qvalOf : PValue → QVal
  | .ident s => .vStr s
  | .quoted s => .vStr s
  | .int n => .vInt n
  | .real s => .vReal s
  | .date y m d => .vDate y m d
  | .f a => .vF a

/-- The whitespace set of Python `str.strip()`. -/
def isPyStripWs (c : Char) : Bool :=
  c = ' ' ∨ c = '\t' ∨ c = '\n' ∨ c = '\r' ∨ c = '\x0b' ∨ c = '\x0c'

/-- Python `str.strip()` with no arguments. -/
def pyStrip (s : String) : String :=
  String.mk ((s.data.dropWhile isPyStripWs).reverse.dropWhile isPyStripWs).reverse

/-- Python `str.lower()` (ASCII as used here). -/
def strToLower (s : String) : String := String.mk (s.data.map Char.toLower)

/-- `default_value_to_q(variable, op, value_string_or_f)`: if the
variable has no `attr`, the clause compiles to the empty `Q()`; a
negated operator (`!=`/`!:`) is stripped to its base operator and the
result negated; the (basestring) value `null` (case-insensitive)
compiles to `Q(**{attr: None})`; otherwise `op_to_q_op` maps the
operator to the Django suffix and the value is filtered against
`attr__suffix`.  Returns `some q` on success (`None` results are
produced only by other `value_to_q` implementations); raises `KeyError`
if `op_to_q_op` has no entry. -/
def default_value_to_q (var : VariableCore) (op : String)
    (value_string_or_f : PValue) : Except QErr (Option Q) :=
  match var.attr with
  | none => .ok (some Q.empty)
  | some attr =>
    let negated : Bool := op == "!=" || op == "!:"
    let op := if negated then op.drop 1 else op
    let isNullString : Bool :=
      match value_string_or_f with
      | .ident s => strToLower s == "null"
      | .quoted s => strToLower s == "null"
      | _ => false
    let rRes : Except QErr Q :=
      if isNullString then
        .ok (Q.filter attr .vNone)
      else
        match var.op_to_q_op op with
        | none => .error .keyError
        | some suffix =>
          .ok (Q.filter (attr ++ "__" ++ suffix) (qvalOf value_string_or_f))
    match rRes with
    | .error e => .error e
    | .ok r => .ok (some (if negated then Q.not r else r))


/-- A `Variable` declaration: the named-struct data plus its
`value_to_q` function, which in Python receives the variable itself as
its first argument. -/
structure Variable extends VariableCore where
  value_to_q : VariableCore → String → PValue → Except QErr (Option Q) :=
    default_value_to_q

/-- `choice_queryset_value_to_q` (the `value_to_q` of
`Variable.choice_queryset`): asserts the operator is `=`, returns the
empty `Q()` for an attribute-less variable, otherwise looks the value
up in the reference table (`variable.model.objects.get(**{lookup: v})`,
modelled by `db`, which returns the found instance's `pk` or `none` for
`ObjectDoesNotExist`) and produces `Q(**{attr + '__pk': instance.pk})`;
a failed lookup returns Python `None` (`.ok none`). -/
def choice_queryset_value_to_q (db : String → PValue → Option Nat)
    (var : VariableCore) (op : String) (value_string_or_f : PValue) :
    Except QErr (Option Q) :=
  if op ≠ "=" then .error .assertionError
  else
    match var.attr with
    | none => .ok (some Q.empty)
    | some attr =>
      match var.value_to_q_lookup with
      | none => .error .typeError
      | some lookupKey =>
        match db lookupKey value_string_or_f with
        | none => .ok none
        | some pk => .ok (some (Q.filter (attr ++ "__pk") (.vInt (Int.ofNat pk))))

/-- `Variable(name=..)` with `attr` left at `MISSING`: the constructor
copies the name into `attr`. -/
def Variable.make (name : String) : Variable :=
  { name := name, attr := some name }

/-- `Variable.case_sensitive`: overrides `op_to_q_op` so `=`/`:` map to
the case-sensitive suffixes, falling back to `Q_OP_BY_OP` (the Python
`{..}.get(op) or Q_OP_BY_OP[op]`). -/
def Variable.case_sensitive (name : String) : Variable :=
  { name := name, attr := some name,
    op_to_q_op := fun op =>
      match (match op with | "=" => some "exact" | ":" => some "contains" | _ => none) with
      | some suffix => some suffix
      | none => Q_OP_BY_OP op }

/-- `Variable.choice_queryset`: sets `op_to_q_op` to constantly
`exact`, `value_to_q_lookup` to `name` and `value_to_q` to
`choice_queryset_value_to_q` (closed over the model's table `db`). -/
def Variable.choice_queryset (db : String → PValue → Option Nat) (name : String) : Variable :=
  { name := name, attr := some name,
    op_to_q_op := fun _ => some "exact",
    value_to_q_lookup := some "name",
    value_to_q := choice_queryset_value_to_q db }

/-- `Query.__init__`: the registry is the variable list itself; the
constructor performs no validation (in particular no duplicate-name
check) and builds `variable_by_name` from it. -/
def Query.init (vs : List Variable) : List Variable := vs

/-- `self.variable_by_name`: the dict `{variable.name: variable}` built
by `Query.__init__` — keys are the declared names verbatim, and a later
variable with the same name silently overwrites an earlier one.
`variable_by_name vs k` is `variable_by_name.get(k)`. -/
def variable_by_name (vs : List Variable) (key : String) : Option Variable :=
  vs.foldl (fun acc v => if v.name = key then some v else acc) none

/-- The substitution `binary_op_as_q` applies to the parsed value
before calling `value_to_q`: an unquoted identifier (a basestring that
is not a `StringValue`) whose lowercase form is a key of
`variable_by_name` becomes `F(that_variable.attr)`; everything else
passes through unchanged. -/
def resolve_value_f (vs : List Variable) (value : PValue) : PValue :=
  match value with
  | .ident s =>
    match variable_by_name vs (strToLower s) with
    | some other => .f other.attr
    | none => value
  | _ => value

/-- The body of `binary_op_as_q` once the variable has been resolved:
substitute a field reference for the value if applicable, call the
variable's `value_to_q`, and turn a Python-`None` result into
`QueryException('Unknown value "%s" for variable "%s"')`. -/
def binary_op_with_variable (vs : List Variable) (var : Variable)
    (op : String) (value : PValue) : Except QErr Q :=
  let value_string_or_f := resolve_value_f vs value
  match var.value_to_q var.toVariableCore op value_string_or_f with
  | .error e => .error e
  | .ok none => .error (.unknownValue value_string_or_f var.name)
  | .ok (some q) => .ok q

/-- `Query.binary_op_as_q`: resolve the statement's identifier against
`variable_by_name` (lowercasing the parsed identifier), then compile
the statement; an unresolved identifier raises
`QueryException('Unknown variable "%s"')`. -/
def binary_op_as_q (vs : List Variable) (variable_name : String)
    (op : String) (value : PValue) : Except QErr Q :=
  match variable_by_name vs (strToLower variable_name) with
  | some var => binary_op_with_variable vs var op value
  | none => .error (.unknownVariable variable_name)

/-- Python `s.strip('"')`: remove every leading and trailing `"`. -/
def stripDoubleQuotes (s : String) : String :=
  let l := s.data.dropWhile (fun c => c = '"')
  String.mk ((l.reverse.dropWhile (fun c => c = '"')).reverse)

/-- `StringValue.__new__`: strip one surrounding pair of double quotes
if the string both starts and ends with one. -/
def stringValue (s : String) : String :=
  if s.data.head? = some '"' ∧ s.data.getLast? = some '"' then (s.drop 1).dropRight 1
  else s

/-- The `Q` objects of the list comprehension inside `freetext_as_q`:
one `Q(**{v.attr + '__' + v.op_to_q_op(':'): token})` per variable with
`freetext` set, in declaration order.  An attribute-less freetext
variable makes Python concatenate `None + str` (`TypeError`); a missing
`:` entry in `op_to_q_op` is a `KeyError`. -/
def freetext_qs : List Variable → String → Except QErr (List Q)
  | [], _ => .ok []
  | v :: rest, token =>
    if v.freetext then
      match v.attr with
      | none => .error .typeError
      | some attr =>
        match v.op_to_q_op ":" with
        | none => .error .keyError
        | some suffix =>
          match freetext_qs rest token with
          | .error e => .error e
          | .ok qs => .ok (Q.filter (attr ++ "__" ++ suffix) (.vStr token) :: qs)
    else freetext_qs rest token

/-- `Query.freetext_as_q`: assert some variable is freetext, strip the
double quotes off the raw matched token, and OR together (left fold,
Python `reduce(operator.or_, ..)`) one contains-style `Q` per freetext
variable. -/
def freetext_as_q (vs : List Variable) (token : String) : Except QErr Q :=
  if ¬ vs.any (fun v => v.freetext) then .error .assertionError
  else
    let token := stripDoubleQuotes token
    match freetext_qs vs token with
    | .error e => .error e
    | .ok [] => .error .typeError
    | .ok (q :: qs) => .ok (qs.foldl Q.or q)

/-- A token of the infix sequence `Query.compile` hands to
`Query.__to_rpn`: a compiled predicate or a connective string. -/
inductive Item where
  | q : Q → Item
  | conn : String → Item
deriving DecidableEq, Repr

/-- The pop-loop inside `Query.__to_rpn`: pop stacked operators with
precedence ≥ the incoming one onto the output. -/
def popGE (p1 : Nat) : List (String × Nat) → List Item → List (String × Nat) × List Item
  | [], result => ([], result)
  | (t2, p2) :: rest, result =>
    if p1 ≤ p2 then popGE p1 rest (result ++ [Item.conn t2])
    else ((t2, p2) :: rest, result)

/-- The main loop of `Query.__to_rpn` (Dijkstra shunting yard): output
predicates immediately; for a connective, first move every stacked
connective of greater-or-equal precedence to the output, then push it;
tokens that are neither predicates nor in `PRECEDENCE` are skipped;
finally drain the stack onto the output. -/
def to_rpn_loop : List Item → List Item → List (String × Nat) → List Item
  | [], result, stack => result ++ stack.map (fun t => Item.conn t.1)
  | Item.q x :: rest, result, stack => to_rpn_loop rest (result ++ [Item.q x]) stack
  | Item.conn t :: rest, result, stack =>
    match PRECEDENCE t with
    | some p1 =>
      let (stack', result') := popGE p1 stack result
      to_rpn_loop rest result' ((t, p1) :: stack')
    | none => to_rpn_loop rest result stack

/-- `Query.__to_rpn`: a single-token sequence is returned unchanged,
otherwise run the shunting-yard loop with empty output and stack. -/
def to_rpn (tokens : List Item) : List Item :=
  if tokens.length = 1 then tokens else to_rpn_loop tokens [] []

/-- One step of the stack evaluation in `Query.__rpn_to_q`: push a
predicate; for a connective pop the right then the left operand
(popping an empty stack is an `IndexError`) and push their `&`/`|`
combination. -/
def rpn_step (stack : List Q) : Item → Except QErr (List Q)
  | Item.q x => .ok (x :: stack)
  | Item.conn op =>
    match stack with
    | right :: left :: rest =>
      .ok ((if op = "and" then Q.and left right else Q.or left right) :: rest)
    | _ => .error .indexError

/-- The fold of `rpn_step` over the token sequence. -/
def rpn_fold : List Q → List Item → Except QErr (List Q)
  | stack, [] => .ok stack
  | stack, t :: rest =>
    match rpn_step stack t with
    | .error e => .error e
    | .ok stack' => rpn_fold stack' rest

/-- `Query.__rpn_to_q`: evaluate the postfix sequence with a stack; the
final stack must hold exactly one predicate (`assert len(stack) == 1`),
which is the result. -/
def rpn_to_q (tokens : List Item) : Except QErr Q :=
  match rpn_fold [] tokens with
  | .error e => .error e
  | .ok [x] => .ok x
  | .ok _ => .error .assertionError

/-- A pyparsing `ParseResults` element as `Query.compile` sees it: a
nested `ParseResults` (a `Group`), a `Q` produced by a parse action, or
a matched string (a connective keyword or a literal parenthesis). -/
inductive PTok where
  | q : Q → PTok
  | s : String → PTok
  | group : List PTok → PTok
deriving Repr

/-- The `for token in tokens` filter loop of `Query.compile`, with the
recursive compilation of nested `ParseResults` inlined (a nested group
contributes `rpn_to_q (to_rpn ..)` of its own items): flatten the token
list, keeping `Q`s and the `and`/`or` strings and dropping everything
else (the parentheses).  Python's recursion is bounded only by the
interpreter stack; the embedding passes explicit `fuel`, which callers
size above the token-tree size so it can never run out. -/
def Query.compileItems : Nat → List PTok → Except QErr (List Item)
  | _, [] => .ok []
  | 0, _ :: _ => .error .assertionError
  | fuel + 1, PTok.group ts :: rest =>
    match Query.compileItems fuel ts with
    | .error e => .error e
    | .ok innerItems =>
      match rpn_to_q (to_rpn innerItems) with
      | .error e => .error e
      | .ok q =>
        match Query.compileItems fuel rest with
        | .error e => .error e
        | .ok items => .ok (Item.q q :: items)
  | fuel + 1, PTok.q x :: rest =>
    match Query.compileItems fuel rest with
    | .error e => .error e
    | .ok items => .ok (Item.q x :: items)
  | fuel + 1, PTok.s t :: rest =>
    match Query.compileItems fuel rest with
    | .error e => .error e
    | .ok items =>
      .ok (if t = "and" ∨ t = "or" then Item.conn t :: items else items)

/-- `Query.compile`: flatten the token list — recursively compiling
nested `ParseResults` to single predicates, keeping `Q`s and the
`and`/`or` strings, dropping everything else — then convert to postfix
and evaluate. -/
def Query.compile (fuel : Nat) (tokens : List PTok) : Except QErr Q :=
  match Query.compileItems fuel tokens with
  | .error e => .error e
  | .ok items => rpn_to_q (to_rpn items)

/-- Parser state: the last consumed character (pyparsing's
`instring[loc-1]`, needed for `Keyword`'s boundary check) and the
remaining input. -/
structure St where
  prev : Option Char
  rest : List Char
deriving Repr

/-- Parser outcome, with pyparsing's two failure modes: `fail` is a
`ParseException` (backtrackable), `err` a Python exception raised from
a parse action (aborts the whole parse). -/
inductive PRes (α : Type) where
  | ok : α → St → PRes α
  | fail : PRes α
  | err : QErr → PRes α
deriving Repr

/-- pyparsing `DEFAULT_WHITE_CHARS = " \n\t"`. -/
def isPyWs (c : Char) : Bool := c = ' ' ∨ c = '\n' ∨ c = '\t'

/-- Skip leading whitespace (done by every pyparsing terminal). -/
def skipWs (st : St) : St :=
  let ws := st.rest.takeWhile isPyWs
  { prev := match ws.getLast? with
            | some c => some c
            | none => st.prev,
    rest := st.rest.dropWhile isPyWs }

/-- `Keyword`'s identifier characters (`alphanums + "_$"`). -/
def isKeywordIdentChar (c : Char) : Bool := c.isAlphanum ∨ c = '_' ∨ c = '$'

/-- Match a literal string case-insensitively, consuming it. -/
def matchCaseless : List Char → St → Option St
  | [], st => some st
  | c :: cs, st =>
    match st.rest with
    | r :: rs => if r.toLower = c.toLower then matchCaseless cs { prev := some r, rest := rs } else none
    | [] => none

/-- Match a literal string exactly, consuming it. -/
def matchExact : List Char → St → Option St
  | [], st => some st
  | c :: cs, st =>
    match st.rest with
    | r :: rs => if r = c then matchExact cs { prev := some r, rest := rs } else none
    | [] => none

/-- pyparsing `Keyword(kw, caseless=True)`: skip whitespace, require
the preceding character (if any) not to be an identifier character,
match `kw` case-insensitively, require the following character (if
any) not to be an identifier character; the produced token is the
canonical `kw`. -/
def pKeyword (kw : String) (st : St) : PRes String :=
  let st := skipWs st
  if (match st.prev with | some c => isKeywordIdentChar c | none => false) then .fail
  else
    match matchCaseless kw.data st with
    | some st' =>
      match st'.rest with
      | c :: _ => if isKeywordIdentChar c then .fail else .ok kw st'
      | [] => .ok kw st'
    | none => .fail

/-- The alternatives of `oneOf('=> =< = < > >= <= : != !:')`, in the
longest-match-first order `oneOf` rearranges them into. -/
def BINARY_OP_LITERALS : List String :=
  ["=>", "=<", ">=", "<=", "!=", "!:", "=", "<", ">", ":"]

/-- Try each operator literal in order at the current position. -/
def tryOps : List String → St → PRes String
  | [], _ => .fail
  | o :: os, st =>
    match matchExact o.data st with
    | some st' => .ok o st'
    | none => tryOps os st

/-- The `binary_op` element: skip whitespace, then longest operator
match. -/
def pBinaryOp (st : St) : PRes String := tryOps BINARY_OP_LITERALS (skipWs st)

/-- pyparsing `Word(first, restChars)` without leading-whitespace skip:
one mandatory first character, then a maximal run. -/
def rawWord (firstOk restOk : Char → Bool) (st : St) : Option (String × St) :=
  match st.rest with
  | c :: cs =>
    if firstOk c then
      let body := cs.takeWhile restOk
      let consumed := c :: body
      some (String.mk consumed, { prev := consumed.getLast?, rest := cs.dropWhile restOk })
    else none
  | [] => none

/-- Body characters of `identifier` (`Word(alphas, alphanums + '_$-')`). -/
def isIdentBodyChar (c : Char) : Bool := c.isAlphanum ∨ c = '_' ∨ c = '$' ∨ c = '-'

/-- The `'.' identifier` repetitions of
`delimitedList(identifier, '.', combine=True)`; `Combine` forbids any
internal whitespace, and a trailing `.` not followed by an identifier
is left unconsumed. -/
def dottedTail : Nat → String → St → String × St
  | 0, acc, st => (acc, st)
  | fuel + 1, acc, st =>
    match st.rest with
    | '.' :: cs =>
      match rawWord Char.isAlpha isIdentBodyChar { prev := some '.', rest := cs } with
      | some (part, st') => dottedTail fuel (acc ++ "." ++ part) st'
      | none => (acc, st)
    | _ => (acc, st)

/-- The `variable_name` element: a dotted identifier path combined into
one string. -/
def pVarName (st : St) : PRes String :=
  let st := skipWs st
  match rawWord Char.isAlpha isIdentBodyChar st with
  | some (id1, st1) =>
    let (full, st2) := dottedTail st1.rest.length id1 st1
    .ok full st2
  | none => .fail

/-- An optional leading `+`/`-` sign (`Optional(arith_sign)`),
consumed without whitespace skipping. -/
def rawSign (l : List Char) : List Char × List Char :=
  match l with
  | c :: cs => if c = '+' ∨ c = '-' then ([c], cs) else ([], l)
  | [] => ([], l)

/-- The optional exponent of `real_num`:
`Optional(E + Optional(arith_sign) + integer)`. -/
def rawRealExp (l : List Char) : List Char × List Char :=
  match l with
  | e :: l1 =>
    if e = 'E' ∨ e = 'e' then
      let (sgn, l2) := rawSign l1
      let digits := l2.takeWhile Char.isDigit
      if digits.isEmpty then ([], l)
      else (e :: sgn ++ digits, l2.dropWhile Char.isDigit)
    else ([], l)
  | [] => ([], l)

/-- The optional exponent of `int_num`:
`Optional(E + Optional('+') + integer)` (no minus allowed). -/
def rawIntExp (l : List Char) : List Char × List Char :=
  match l with
  | e :: l1 =>
    if e = 'E' ∨ e = 'e' then
      let (plus, l2) :=
        match l1 with
        | '+' :: cs => (['+'], cs)
        | _ => ([], l1)
      let digits := l2.takeWhile Char.isDigit
      if digits.isEmpty then ([], l)
      else (e :: plus ++ digits, l2.dropWhile Char.isDigit)
    else ([], l)
  | [] => ([], l)

/-- `real_num`: `Combine(Optional(sign) + (integer '.' Optional(integer)
| '.' integer) + Optional(exponent))` — adjacent characters only; the
parse action `float(t[0])` is modelled by keeping the matched text. -/
def rawReal (st : St) : Option (String × St) :=
  let (sgn, l1) := rawSign st.rest
  let d1 := l1.takeWhile Char.isDigit
  let l2 := l1.dropWhile Char.isDigit
  match l2 with
  | '.' :: l3 =>
    let d2 := l3.takeWhile Char.isDigit
    let l4 := l3.dropWhile Char.isDigit
    if d1.isEmpty ∧ d2.isEmpty then none
    else
      let (expPart, l5) := rawRealExp l4
      let consumed := sgn ++ d1 ++ '.' :: d2 ++ expPart
      some (String.mk consumed, { prev := consumed.getLast?, rest := l5 })
  | _ => none

/-- `int_num`: `Combine(Optional(sign) + integer + Optional(exponent))`
— adjacent characters only.  Returns the matched text. -/
def rawInt (st : St) : Option (String × St) :=
  let (sgn, l1) := rawSign st.rest
  let d1 := l1.takeWhile Char.isDigit
  let l2 := l1.dropWhile Char.isDigit
  if d1.isEmpty then none
  else
    let (expPart, l3) := rawIntExp l2
    let consumed := sgn ++ d1 ++ expPart
    some (String.mk consumed, { prev := consumed.getLast?, rest := l3 })

/-- Python `int(text)` for an optional sign followed by digits;
a text containing an exponent marker raises `ValueError`. -/
def pythonInt (text : String) : Except QErr Int :=
  if text.data.any (fun c => c = 'E' ∨ c = 'e') then .error .valueError
  else
    let (neg, digits) :=
      match text.data with
      | '-' :: cs => (true, cs)
      | '+' :: cs => (false, cs)
      | cs => (false, cs)
    let n : Nat := digits.foldl (fun acc c => acc * 10 + (c.toNat - '0'.toNat)) 0
    .ok (if neg then -(Int.ofNat n) else Int.ofNat n)

/-- Digit string to `Nat`. -/
def digitsToNat (s : String) : Nat :=
  s.data.foldl (fun acc c => acc * 10 + (c.toNat - '0'.toNat)) 0

/-- Gregorian leap year, as `datetime.date` checks it. -/
def isLeapYear (y : Nat) : Bool := y % 4 = 0 ∧ (y % 100 ≠ 0 ∨ y % 400 = 0)

/-- Days in a month, as `datetime.date` checks it. -/
def daysInMonth (y m : Nat) : Nat :=
  if m = 2 then (if isLeapYear y then 29 else 28)
  else if m = 4 ∨ m = 6 ∨ m = 9 ∨ m = 11 then 30
  else 31

/-- Validity check of `datetime.date(y, m, d)`. -/
def validDate (y m d : Nat) : Bool :=
  1 ≤ y ∧ y ≤ 9999 ∧ 1 ≤ m ∧ m ≤ 12 ∧ 1 ≤ d ∧ d ≤ daysInMonth y m

/-- `date_str`: `integer '-' integer '-' integer` (separate tokens, so
whitespace may appear around the dashes), whose parse action builds a
`datetime.date`; an invalid calendar date raises `ValueError`. -/
def pDate (st : St) : PRes PValue :=
  match rawWord Char.isDigit Char.isDigit (skipWs st) with
  | none => .fail
  | some (y, st1) =>
    match (skipWs st1).rest with
    | '-' :: r1 =>
      match rawWord Char.isDigit Char.isDigit (skipWs { prev := some '-', rest := r1 }) with
      | none => .fail
      | some (m, st2) =>
        match (skipWs st2).rest with
        | '-' :: r2 =>
          match rawWord Char.isDigit Char.isDigit (skipWs { prev := some '-', rest := r2 }) with
          | none => .fail
          | some (d, st3) =>
            let yn := digitsToNat y
            let mn := digitsToNat m
            let dn := digitsToNat d
            if validDate yn mn dn then .ok (PValue.date yn mn dn) st3
            else .err .valueError
        | _ => .fail
    | _ => .fail

/-- The quoted-string scanner of pyparsing `quotedString`: an opening
`"` or `'`, then content characters (backslash escapes a character, no
newline allowed), up to the matching closing quote.  Returns the raw
matched text including the quotes. -/
def quotedBody (q : Char) : Nat → List Char → List Char → Option (List Char × List Char)
  | 0, _, _ => none
  | _ + 1, acc, c :: cs =>
    if c = q then some (acc, cs)
    else if c = '\\' then
      match cs with
      | c2 :: cs2 => quotedBody q cs2.length (acc ++ [c, c2]) cs2
      | [] => none
    else if c = '\n' ∨ c = '\r' then none
    else quotedBody q cs.length (acc ++ [c]) cs
  | _ + 1, _, [] => none

/-- `quotedString` (after the usual whitespace skip): the raw matched
text, quotes included. -/
def pQuotedRaw (st : St) : Option (String × St) :=
  let st := skipWs st
  match st.rest with
  | c :: cs =>
    if c = '"' ∨ c = '\'' then
      match quotedBody c cs.length [] cs with
      | some (content, rest) =>
        some (String.mk (c :: content ++ [c]), { prev := some c, rest := rest })
      | none => none
    else none
  | [] => none

/-- The `value_string` alternation
`date_str | real_num | int_num | variable_name | quoted_string`, with
pyparsing `MatchFirst` semantics: the first syntactic match wins, and a
parse-action exception (an invalid date, or `int()` on an exponent
form) aborts instead of falling through. -/
def pValueString (st : St) : PRes PValue :=
  match pDate st with
  | .ok v st' => .ok v st'
  | .err e => .err e
  | .fail =>
    let st0 := skipWs st
    match rawReal st0 with
    | some (text, st') => .ok (PValue.real text) st'
    | none =>
      match rawInt st0 with
      | some (text, st') =>
        match pythonInt text with
        | .ok n => .ok (PValue.int n) st'
        | .error e => .err e
      | none =>
        match pVarName st with
        | .ok name st' => .ok (PValue.ident name) st'
        | _ =>
          match pQuotedRaw st with
          | some (raw, st') => .ok (PValue.quoted (stringValue raw)) st'
          | none => .fail

/-- `binary_operator_statement`: `variable_name binary_op value_string`
with the parse action `self.binary_op_as_q`; a syntactic mismatch
backtracks, a `QueryException` from the action aborts. -/
def pBinaryStmt (vs : List Variable) (st : St) : PRes Q :=
  match pVarName st with
  | .fail => .fail
  | .err e => .err e
  | .ok name st1 =>
    match pBinaryOp st1 with
    | .fail => .fail
    | .err e => .err e
    | .ok op st2 =>
      match pValueString st2 with
      | .fail => .fail
      | .err e => .err e
      | .ok v st3 =>
        match binary_op_as_q vs name op v with
        | .ok q => .ok q st3
        | .error e => .err e

/-- `free_text_statement`: a quoted string with the parse action
`self.freetext_as_q` applied to the raw matched text. -/
def pFreeText (vs : List Variable) (st : St) : PRes Q :=
  match pQuotedRaw st with
  | some (raw, st') =>
    match freetext_as_q vs raw with
    | .ok q => .ok q st'
    | .error e => .err e
  | none => .fail

/-- Which grammar element `pWhereF` is parsing: a `where_expression`,
a `where_condition`, or the `ZeroOrMore((and_ | or_) + where_expression)`
tail of an expression. -/
inductive WMode where
  | expr : WMode
  | cond : WMode
  | tail : WMode

/-- The mutually recursive `where_expression` /
`where_condition` / `ZeroOrMore` part of the grammar, merged into one
function structurally recursive on `fuel` (callers size `fuel` above
anything the grammar can consume, so exhaustion — modelled as a plain
parse failure — is unreachable):

* `expr` (`where_expression`): one `where_condition` followed by the
  `ZeroOrMore` tail; the recursive occurrence of `where_expression` is
  not grouped, so its tokens flatten into the enclosing sequence;
* `cond` (`where_condition`):
  `Group(binary_operator_statement | free_text_statement |
  '(' + where_expression + ')')` — the literal parentheses are kept as
  tokens inside the group;
* `tail` (with `acc` the tokens so far): repeatedly try a connective
  keyword followed by a (flattened) sub-expression; if the keyword
  matches but the sub-expression fails syntactically, the iteration
  backtracks and the repetition ends. -/
def pWhereF (vs : List Variable) : Nat → WMode → List PTok → St → PRes (List PTok)
  | 0, _, _, _ => .fail
  | fuel + 1, .expr, _, st =>
    match pWhereF vs fuel .cond [] st with
    | .fail => .fail
    | .err e => .err e
    | .ok conds st1 => pWhereF vs fuel .tail conds st1
  | fuel + 1, .cond, _, st =>
    match pBinaryStmt vs st with
    | .ok q st' => .ok [PTok.group [PTok.q q]] st'
    | .err e => .err e
    | .fail =>
      match pFreeText vs st with
      | .ok q st' => .ok [PTok.group [PTok.q q]] st'
      | .err e => .err e
      | .fail =>
        let st0 := skipWs st
        match st0.rest with
        | '(' :: r =>
          match pWhereF vs fuel .expr [] { prev := some '(', rest := r } with
          | .ok toks st1 =>
            let st2 := skipWs st1
            match st2.rest with
            | ')' :: r2 =>
              .ok [PTok.group (PTok.s "(" :: toks ++ [PTok.s ")"])] { prev := some ')', rest := r2 }
            | _ => .fail
          | .fail => .fail
          | .err e => .err e
        | _ => .fail
  | fuel + 1, .tail, acc, st =>
    match pKeyword "and" st with
    | .err e => .err e
    | .ok c st1 =>
      match pWhereF vs fuel .expr [] st1 with
      | .ok toks st2 => pWhereF vs fuel .tail (acc ++ PTok.s c :: toks) st2
      | .fail => .ok acc st
      | .err e => .err e
    | .fail =>
      match pKeyword "or" st with
      | .err e => .err e
      | .ok c st1 =>
        match pWhereF vs fuel .expr [] st1 with
        | .ok toks st2 => pWhereF vs fuel .tail (acc ++ PTok.s c :: toks) st2
        | .fail => .ok acc st
        | .err e => .err e
      | .fail => .ok acc st

/-- `where_expression` as a whole. -/
def pWhereExpr (vs : List Variable) (fuel : Nat) (st : St) : PRes (List PTok) :=
  pWhereF vs fuel .expr [] st

/-- `Query.parse`: strip the input; empty input is the empty `Q()`;
otherwise run the grammar (`query_statement = Group(where_expression)`)
over the whole string — an unparsable string or trailing input is
`QueryException('Invalid syntax for query')`, an exception from a parse
action propagates — and compile the resulting token tree. -/
def Query.parse (vs : List Variable) (query_string : String) : Except QErr Q :=
  let s := pyStrip query_string
  if s.isEmpty then .ok Q.empty
  else
    match pWhereExpr vs (2 * s.length + 4) { prev := none, rest := s.data } with
    | .ok toks st =>
      let st' := skipWs st
      if st'.rest.isEmpty then Query.compile (2 * s.length + 4) [PTok.group toks]
      else .error .invalidSyntax
    | .fail => .error .invalidSyntax
    | .err e => .error e

/-- A well-formed infix sequence (predicates alternating with
connectives, as `Query.compile` produces from a parenthesis-free
expression): a head predicate followed by connective/predicate pairs. -/
def flatPairs (ps : List (String × Q)) : List Item :=
  ps.foldr (fun p acc => Item.conn p.1 :: Item.q p.2 :: acc) []

/-- The infix token sequence `q0 c1 q1 c2 q2 …`. -/
def itemsOf (q0 : Q) (ps : List (String × Q)) : List Item :=
  Item.q q0 :: flatPairs ps

/-- Reference evaluator written from the spec's words (`and` binds
tighter than `or`, left-to-right): `orAcc` is the or-combination of the
finished groups, `andAcc` the and-combination of the current group; an
`and` extends the current group, an `or` closes it. -/
def specGo (orAcc : Option Q) (andAcc : Q) : List (String × Q) → Q
  | [] =>
    (match orAcc with
     | none => andAcc
     | some o => Q.or o andAcc)
  | ("and", q) :: rest => specGo orAcc (Q.and andAcc q) rest
  | (_, q) :: rest =>
    specGo
      (some (match orAcc with
             | none => andAcc
             | some o => Q.or o andAcc)) q rest

/-- Precedence-respecting evaluation of a well-formed infix sequence,
from the spec's words. -/
def specEval (q0 : Q) (ps : List (String × Q)) : Q := specGo none q0 ps

/-- The postfix form the shunting yard produces for a well-formed
infix sequence: `and` is emitted right after its operand, `or` is held
pending until its right-hand group closes. -/
def rpnSpecGo (pendingOr : Bool) : List (String × Q) → List Item
  | [] => if pendingOr then [Item.conn "or"] else []
  | ("and", q) :: rest => Item.q q :: Item.conn "and" :: rpnSpecGo pendingOr rest
  | (_, q) :: rest =>
    (if pendingOr then [Item.conn "or"] else []) ++ Item.q q :: rpnSpecGo true rest

/-- Unfolding equation for `flatPairs`. -/
theorem flatPairs_cons (p : String × Q) (rest : List (String × Q)) :
    flatPairs (p :: rest) = Item.conn p.1 :: Item.q p.2 :: flatPairs rest := rfl

/-- Exhaustive description of `to_rpn_loop` on a well-formed pair
sequence, for each of the four operator-stack shapes the two-level
precedence table can produce. -/
theorem to_rpn_loop_spec (ps : List (String × Q))
    (hconn : ∀ p ∈ ps, p.1 = "and" ∨ p.1 = "or") :
    ∀ result : List Item,
      to_rpn_loop (flatPairs ps) result [] = result ++ rpnSpecGo false ps
    ∧ to_rpn_loop (flatPairs ps) result [("and", 3)] =
        result ++ Item.conn "and" :: rpnSpecGo false ps
    ∧ to_rpn_loop (flatPairs ps) result [("or", 2)] = result ++ rpnSpecGo true ps
    ∧ to_rpn_loop (flatPairs ps) result [("and", 3), ("or", 2)] =
        result ++ Item.conn "and" :: rpnSpecGo true ps := by
  induction ps with
  | nil =>
    intro result
    simp [flatPairs, to_rpn_loop, rpnSpecGo]
  | cons p rest ih =>
    obtain ⟨c, q⟩ := p
    have hc : c = "and" ∨ c = "or" := hconn ⟨c, q⟩ (List.mem_cons_self _ _)
    have ih' := ih (fun p hp => hconn p (List.mem_cons_of_mem _ hp))
    simp only [flatPairs] at ih' ⊢
    intro result
    rcases hc with hc | hc <;> subst hc <;>
      refine ⟨?_, ?_, ?_, ?_⟩ <;>
      (simp only [List.foldr_cons, to_rpn_loop, PRECEDENCE, popGE, rpnSpecGo];
       norm_num) <;>
      first
        | (rw [(ih' _).1]; simp [rpnSpecGo, List.append_assoc])
        | (rw [(ih' _).2.1]; simp [rpnSpecGo, List.append_assoc])
        | (rw [(ih' _).2.2.1]; simp [rpnSpecGo, List.append_assoc])
        | (rw [(ih' _).2.2.2]; simp [rpnSpecGo, List.append_assoc])

/-- Stack evaluation of the postfix form: the produced predicate is the
precedence-respecting evaluation of the infix sequence. -/
theorem rpn_fold_spec (ps : List (String × Q))
    (hconn : ∀ p ∈ ps, p.1 = "and" ∨ p.1 = "or") :
    ∀ (a : Q) (stack : List Q),
      rpn_fold (a :: stack) (rpnSpecGo false ps) = .ok (specGo none a ps :: stack)
    ∧ ∀ o : Q,
        rpn_fold (a :: o :: stack) (rpnSpecGo true ps) =
          .ok (specGo (some o) a ps :: stack) := by
  induction ps with
  | nil =>
    intro a stack
    constructor
    · simp [rpnSpecGo, rpn_fold, specGo]
    · intro o
      simp [rpnSpecGo, rpn_fold, rpn_step, specGo]
  | cons p rest ih =>
    obtain ⟨c, q⟩ := p
    have hc : c = "and" ∨ c = "or" := hconn ⟨c, q⟩ (List.mem_cons_self _ _)
    have ih' := ih (fun p hp => hconn p (List.mem_cons_of_mem _ hp))
    intro a stack
    rcases hc with hc | hc <;> subst hc
    · constructor
      · simp only [rpnSpecGo, rpn_fold, rpn_step, if_pos rfl, if_true]
        rw [(ih' (Q.and a q) stack).1]
        simp [specGo]
      · intro o
        simp only [rpnSpecGo, rpn_fold, rpn_step, if_pos rfl, if_true]
        rw [(ih' (Q.and a q) stack).2 o]
        simp [specGo]
    · constructor
      · simp only [rpnSpecGo, rpn_fold, rpn_step]
        rw [(ih' q stack).2 a]
        simp [specGo]
      · intro o
        simp only [rpnSpecGo, rpn_fold, rpn_step]
        rw [if_neg (by decide)]
        rw [(ih' q stack).2 (Q.or o a)]
        simp [specGo]

/-- Composition: converting a well-formed infix sequence to postfix and
evaluating it yields exactly the precedence-respecting evaluation. -/
theorem to_rpn_correct (q0 : Q) (ps : List (String × Q))
    (hconn : ∀ p ∈ ps, p.1 = "and" ∨ p.1 = "or") :
    rpn_to_q (to_rpn (itemsOf q0 ps)) = .ok (specEval q0 ps) := by
  cases ps with
  | nil =>
    simp [itemsOf, flatPairs, to_rpn, rpn_to_q, rpn_fold, rpn_step, specEval, specGo]
  | cons p rest =>
    have hlen : (itemsOf q0 (p :: rest)).length ≠ 1 := by
      simp [itemsOf, flatPairs]
    rw [to_rpn, if_neg hlen]
    have hloop := (to_rpn_loop_spec (p :: rest) hconn [Item.q q0]).1
    have hstep : to_rpn_loop (itemsOf q0 (p :: rest)) [] [] =
        to_rpn_loop (flatPairs (p :: rest)) [Item.q q0] [] := by
      simp [itemsOf, to_rpn_loop]
    rw [hstep, hloop]
    have heval := (rpn_fold_spec (p :: rest) hconn q0 []).1
    rw [rpn_to_q]
    have hfold : rpn_fold [] (Item.q q0 :: rpnSpecGo false (p :: rest)) =
        rpn_fold [q0] (rpnSpecGo false (p :: rest)) := by
      simp [rpn_fold, rpn_step]
    simp only [List.cons_append, List.nil_append]
    rw [hfold, heval]
    rfl

/-- C1: `and` binds tighter than `or`: compiling any well-formed
parenthesis-free connective sequence equals the precedence-respecting
evaluation (and-chains grouped first, or applied across groups); a
parenthesized subexpression enters the outer sequence as one already
reduced predicate; and concretely `a:1 or a:2 and a:3` compiles to
`OR(p1, AND(p2, p3))` while `(a:1 or a:2) and a:3` compiles to
`AND(OR(p1, p2), p3)`. -/
theorem C1_and_binds_tighter_and_parens_override :
    (∀ (q0 : Q) (ps : List (String × Q)),
        (∀ p ∈ ps, p.1 = "and" ∨ p.1 = "or") →
        rpn_to_q (to_rpn (itemsOf q0 ps)) = .ok (specEval q0 ps))
    ∧ (∀ (fuel : Nat) (ts rest : List PTok) (q : Q) (items : List Item),
        Query.compile fuel ts = .ok q →
        Query.compileItems fuel rest = .ok items →
        Query.compileItems (fuel + 1) (PTok.group ts :: rest) = .ok (Item.q q :: items))
    ∧ Query.parse [Variable.make "a"] "a:1 or a:2 and a:3" =
        .ok (Q.or (Q.filter "a__icontains" (.vInt 1))
              (Q.and (Q.filter "a__icontains" (.vInt 2))
                (Q.filter "a__icontains" (.vInt 3))))
    ∧ Query.parse [Variable.make "a"] "(a:1 or a:2) and a:3" =
        .ok (Q.and
              (Q.or (Q.filter "a__icontains" (.vInt 1))
                (Q.filter "a__icontains" (.vInt 2)))
              (Q.filter "a__icontains" (.vInt 3))) := by
  refine ⟨to_rpn_correct, ?_, by rfl, by rfl⟩
  intro fuel ts rest q items hq hitems
  rw [Query.compile] at hq
  rcases hinner : Query.compileItems fuel ts with e | inner <;> rw [hinner] at hq
  · cases hq
  · simp at hq
    simp [Query.compileItems, hinner, hq, hitems]

/-- Witness for C1: the general conjuncts applied at the concrete
3-predicate sequence of the claim and at a concrete group. -/
theorem C1_witness :
    rpn_to_q (to_rpn (itemsOf (Q.filter "p" (.vInt 1))
        [("or", Q.filter "p" (.vInt 2)), ("and", Q.filter "p" (.vInt 3))])) =
      .ok (Q.or (Q.filter "p" (.vInt 1))
            (Q.and (Q.filter "p" (.vInt 2)) (Q.filter "p" (.vInt 3))))
    ∧ Query.compileItems 2 [PTok.group [PTok.q Q.empty]] = .ok [Item.q Q.empty] :=
  ⟨C1_and_binds_tighter_and_parens_override.1 (Q.filter "p" (.vInt 1))
      [("or", Q.filter "p" (.vInt 2)), ("and", Q.filter "p" (.vInt 3))]
      (by simp),
   C1_and_binds_tighter_and_parens_override.2.1 1 [PTok.q Q.empty] [] Q.empty []
      (by rfl) (by rfl)⟩

/-- C2: whenever a variable's `value_to_q` returns Python `None` for
the (resolved) value of a binary statement, `binary_op_as_q` raises the
unresolved-value `QueryException`, naming the offending value and the
variable; concretely, a `choice_queryset` field whose reference lookup
finds no match produces that error rather than any predicate. -/
theorem C2_none_result_raises_unresolved_value :
    (∀ (vs : List Variable) (name op : String) (value : PValue) (var : Variable),
        variable_by_name vs (strToLower name) = some var →
        var.value_to_q var.toVariableCore op (resolve_value_f vs value) = .ok none →
        binary_op_as_q vs name op value =
          .error (.unknownValue (resolve_value_f vs value) var.name))
    ∧ Query.parse [Variable.choice_queryset (fun _ _ => none) "make"] "make = Toyota" =
        .error (.unknownValue (.ident "Toyota") "make") := by
  refine ⟨?_, by rfl⟩
  intro vs name op value var hvar hnone
  simp [binary_op_as_q, hvar, binary_op_with_variable, hnone]

/-- Witness for C2: the general conjunct at a concrete one-field
registry whose reference lookup always fails. -/
theorem C2_witness :
    binary_op_as_q [Variable.choice_queryset (fun _ _ => none) "make"] "make" "="
        (.ident "Toyota") =
      .error (.unknownValue
        (resolve_value_f [Variable.choice_queryset (fun _ _ => none) "make"] (.ident "Toyota"))
        (Variable.choice_queryset (fun _ _ => none) "make").name) :=
  C2_none_result_raises_unresolved_value.1
    [Variable.choice_queryset (fun _ _ => none) "make"] "make" "=" (.ident "Toyota")
    (Variable.choice_queryset (fun _ _ => none) "make") (by rfl) (by rfl)

/-- C3 counterexample: against a default field `price`, the statement
`price != null` does not compile to the attribute-absent predicate
`Q(price=None)` — the negated operator is split off first, so the
result is its logical negation. -/
theorem C3_counterexample :
    Query.parse [Variable.make "price"] "price != null" =
      .ok (Q.not (Q.filter "price" .vNone))
    ∧ Q.not (Q.filter "price" .vNone) ≠ Q.filter "price" .vNone :=
  ⟨by rfl, by decide⟩

/-- C3 (amended): for a registered field using the default
value-to-predicate conversion with a present attribute path, an
unquoted case-insensitive `null` value compiles to the
attribute-absent predicate for every non-negated operator, and to the
logical negation of that predicate for `!=`/`!:`. -/
theorem C3_null_literal_amended :
    ∀ (vs : List Variable) (var : Variable) (a name op s : String),
      variable_by_name vs (strToLower name) = some var →
      var.value_to_q = default_value_to_q →
      var.attr = some a →
      strToLower s = "null" →
      variable_by_name vs (strToLower s) = none →
      binary_op_as_q vs name op (.ident s) =
        .ok (if op = "!=" ∨ op = "!:" then Q.not (Q.filter a .vNone)
             else Q.filter a .vNone) := by
  intro vs var a name op s hvar hdef hattr hnull hnovar
  simp only [binary_op_as_q, hvar, binary_op_with_variable, resolve_value_f, hnovar, hdef]
  have hattr' : var.toVariableCore.attr = some a := hattr
  simp only [default_value_to_q, hattr', hnull]
  by_cases hneg : op = "!=" ∨ op = "!:"
  · rcases hneg with h | h <;> subst h <;> simp
  · have h1 : (op == "!=") = false := beq_eq_false_iff_ne.mpr (fun h => hneg (Or.inl h))
    have h2 : (op == "!:") = false := beq_eq_false_iff_ne.mpr (fun h => hneg (Or.inr h))
    simp [h1, h2, hneg]

/-- Witness for C3's amended theorem: `price != NULL` against the
default `price` field. -/
theorem C3_amended_witness :
    binary_op_as_q [Variable.make "price"] "price" "!=" (.ident "NULL") =
      .ok (if ("!=" : String) = "!=" ∨ ("!=" : String) = "!:"
           then Q.not (Q.filter "price" .vNone) else Q.filter "price" .vNone) :=
  C3_null_literal_amended [Variable.make "price"] (Variable.make "price") "price"
    "price" "!=" "NULL" (by rfl) (by rfl) (by rfl) (by rfl) (by rfl)

/-- C4 counterexample: against a registry declaring `foo` and `Bar`,
the unquoted value token `BAR` of `foo = BAR` case-insensitively
matches the registered field name `Bar`, yet the statement compiles
with the token as a literal string, not as a reference to `Bar`'s
attribute — the membership probe lowercases the token but the dict
keys keep the declared casing. -/
theorem C4_counterexample :
    Query.parse [Variable.make "foo", Variable.make "Bar"] "foo = BAR" =
      .ok (Q.filter "foo__iexact" (.vStr "BAR"))
    ∧ strToLower "BAR" = strToLower (Variable.make "Bar").name
    ∧ ∀ a : Option String,
        Q.filter "foo__iexact" (.vStr "BAR") ≠ Q.filter "foo__iexact" (.vF a) := by
  refine ⟨by rfl, rfl, ?_⟩
  intro a h
  injection h with h1 h2
  cases h2

/-- C4 (amended): an unquoted identifier in value position becomes a
reference `F(other.attr)` to another field's attribute exactly when
its lowercase form is one of the verbatim declared names — so a field
declared in all lower-case is referenced under any casing of the
token (`foo = BAR` with `bar` declared), while a token whose lowercase
form is no verbatim key stays a literal; a double-quoted token always
compiles as a literal string (`foo = "bar"`). -/
theorem C4_field_reference_vs_literal :
    (∀ (vs : List Variable) (s : String) (other : Variable),
        variable_by_name vs (strToLower s) = some other →
        resolve_value_f vs (.ident s) = .f other.attr)
    ∧ (∀ (vs : List Variable) (s : String),
        variable_by_name vs (strToLower s) = none →
        resolve_value_f vs (.ident s) = .ident s)
    ∧ (∀ (vs : List Variable) (s : String), resolve_value_f vs (.quoted s) = .quoted s)
    ∧ Query.parse [Variable.make "foo", Variable.make "bar"] "foo = BAR" =
        .ok (Q.filter "foo__iexact" (.vF (some "bar")))
    ∧ Query.parse [Variable.make "foo", Variable.make "bar"] "foo = \"bar\"" =
        .ok (Q.filter "foo__iexact" (.vStr "bar")) := by
  refine ⟨?_, ?_, ?_, by rfl, by rfl⟩
  · intro vs s other h
    simp [resolve_value_f, h]
  · intro vs s h
    simp [resolve_value_f, h]
  · intro vs s
    rfl

/-- Witness for C4: the field-reference conjunct at a concrete
registry. -/
theorem C4_witness :
    resolve_value_f [Variable.make "bar"] (.ident "BAR") =
      .f (Variable.make "bar").attr :=
  C4_field_reference_vs_literal.1 [Variable.make "bar"] "BAR" (Variable.make "bar") (by rfl)

/-- Fold step of `variable_by_name` ignores variables whose names
differ from the key. -/
theorem variable_by_name_skip (ys : List Variable) (key : String) :
    ∀ acc : Option Variable, (∀ u ∈ ys, u.name ≠ key) →
      ys.foldl (fun acc v => if v.name = key then some v else acc) acc = acc := by
  induction ys with
  | nil => intro acc h; rfl
  | cons u rest ih =>
    intro acc h
    rw [List.foldl_cons, if_neg (h u (List.mem_cons_self _ _))]
    exact ih acc (fun u hu => h u (List.mem_cons_of_mem _ hu))

/-- C5 counterexample: constructing a registry from two fields that
share the (case-insensitively equal, in fact identical) name `a`
succeeds — `Query.__init__` performs no duplicate check and no error
type for it even exists — and the later field silently shadows the
earlier one in the by-name dict. -/
theorem C5_counterexample :
    Query.init [{ name := "a", attr := some "x" }, { name := "a", attr := some "y" }] =
      [{ name := "a", attr := some "x" }, { name := "a", attr := some "y" }]
    ∧ variable_by_name
        (Query.init [{ name := "a", attr := some "x" }, { name := "a", attr := some "y" }])
        "a" = some { name := "a", attr := some "y" }
    ∧ (variable_by_name
        (Query.init [{ name := "a", attr := some "x" }, { name := "a", attr := some "y" }])
        "a" = some { name := "a", attr := some "x" } → False) := by
  refine ⟨rfl, by rfl, ?_⟩
  intro h
  have hy : variable_by_name
      (Query.init [{ name := "a", attr := some "x" }, { name := "a", attr := some "y" }])
      "a" = some { name := "a", attr := some "y" } := by rfl
  rw [hy] at h
  have hrec := Option.some.inj h
  have h3 : (some "y" : Option String) = some "x" :=
    congrArg (fun v : Variable => v.attr) hrec
  simp at h3

/-- C5 (amended): registry construction never fails — duplicate names
raise no error; the by-name dict keeps, for each exact declared name,
the last field bearing it, and any field not shadowed by a later field
of the same exact name is retrievable under its declared name. -/
theorem C5_registry_amended :
    (∀ vs : List Variable, Query.init vs = vs)
    ∧ (∀ (xs ys : List Variable) (v : Variable),
        (∀ u ∈ ys, u.name ≠ v.name) →
        variable_by_name (Query.init (xs ++ v :: ys)) v.name = some v) := by
  constructor
  · intro vs
    rfl
  · intro xs ys v h
    rw [Query.init, variable_by_name, List.foldl_append, List.foldl_cons, if_pos rfl]
    exact variable_by_name_skip ys v.name (some v) h

/-- Witness for C5's amended theorem: a single-field registry. -/
theorem C5_amended_witness :
    variable_by_name (Query.init ([] ++ Variable.make "a" :: [])) (Variable.make "a").name =
      some (Variable.make "a") :=
  C5_registry_amended.2 [] [] (Variable.make "a") (by intro u hu; cases hu)

/-- C6 counterexample: a field declared with the upper-case name `Foo`
is never resolved — even the query identifier `Foo`, identical to the
declared name, raises the unknown-variable error, because the lookup
lowercases the identifier while the dict key keeps the declared
casing. -/
theorem C6_counterexample :
    Query.parse [Variable.make "Foo"] "Foo = 1" = .error (.unknownVariable "Foo")
    ∧ (Variable.make "Foo").name = "Foo" :=
  ⟨by rfl, rfl⟩

/-- C6 (amended): `binary_op_as_q` resolves a statement by looking up
the lowercased query identifier among the verbatim declared names: if
that lookup finds a field, the statement compiles against it (so a
field whose declared name is all lower-case is found under any letter
casing of the identifier, e.g. `PrIcE = 5`); if not, the
unknown-variable error is raised (so declared names containing
upper-case letters are unreachable). -/
theorem C6_case_insensitive_amended :
    (∀ (vs : List Variable) (name op : String) (value : PValue) (var : Variable),
        variable_by_name vs (strToLower name) = some var →
        binary_op_as_q vs name op value = binary_op_with_variable vs var op value)
    ∧ (∀ (vs : List Variable) (name op : String) (value : PValue),
        variable_by_name vs (strToLower name) = none →
        binary_op_as_q vs name op value = .error (.unknownVariable name))
    ∧ Query.parse [Variable.make "price"] "PrIcE = 5" =
        .ok (Q.filter "price__iexact" (.vInt 5)) := by
  refine ⟨?_, ?_, by rfl⟩
  · intro vs name op value var h
    simp [binary_op_as_q, h]
  · intro vs name op value h
    simp [binary_op_as_q, h]

/-- Witness for C6's amended theorem: the all-lower-case field `price`
is resolved from the mixed-case identifier `PrIcE`. -/
theorem C6_amended_witness :
    binary_op_as_q [Variable.make "price"] "PrIcE" "=" (.int 5) =
      binary_op_with_variable [Variable.make "price"] (Variable.make "price") "=" (.int 5) :=
  C6_case_insensitive_amended.1 [Variable.make "price"] "PrIcE" "=" (.int 5)
    (Variable.make "price") (by rfl)

/-- The predicates `freetext_as_q` builds, described directly: one
contains-style filter per freetext-flagged variable, in declaration
order. -/
def freetext_expected (vs : List Variable) (token : String) : List Q :=
  (vs.filter (fun v => v.freetext)).map (fun v =>
    Q.filter ((v.attr.getD "") ++ "__" ++ ((v.op_to_q_op ":").getD "")) (.vStr token))

/-- Python `reduce(operator.or_, qs)` for a non-empty list (the empty
case is unreachable behind the freetext assertion). -/
def foldOr : List Q → Q
  | [] => Q.empty
  | q :: qs => qs.foldl Q.or q

/-- When every freetext variable has an attribute and a `:` operator
mapping, the comprehension succeeds and produces exactly the expected
list. -/
theorem freetext_qs_ok (vs : List Variable) (token : String)
    (h : ∀ v ∈ vs, v.freetext → v.attr.isSome ∧ (v.op_to_q_op ":").isSome) :
    freetext_qs vs token = .ok (freetext_expected vs token) := by
  induction vs with
  | nil => rfl
  | cons v rest ih =>
    have ihr := ih (fun u hu hf => h u (List.mem_cons_of_mem _ hu) hf)
    by_cases hf : v.freetext
    · obtain ⟨ha, ho⟩ := h v (List.mem_cons_self _ _) hf
      obtain ⟨a, ha⟩ := Option.isSome_iff_exists.mp ha
      obtain ⟨o, ho⟩ := Option.isSome_iff_exists.mp ho
      simp [freetext_qs, hf, ha, ho, ihr, freetext_expected]
    · simp [freetext_qs, hf, ihr, freetext_expected]

/-- C7: compiling a bare quoted string against a registry with at least
one freetext field (each with attribute and `:` mapping, as every
well-formed declaration has) yields the OR over one contains-style
predicate per freetext field; concretely, with freetext fields `a` and
`b`, `"hello"` compiles to
`OR(contains(a, hello), contains(b, hello))`. -/
theorem C7_freetext_or_of_contains :
    (∀ (vs : List Variable) (raw : String),
        vs.any (fun v => v.freetext) = true →
        (∀ v ∈ vs, v.freetext → v.attr.isSome ∧ (v.op_to_q_op ":").isSome) →
        freetext_as_q vs raw = .ok (foldOr (freetext_expected vs (stripDoubleQuotes raw))))
    ∧ Query.parse
        [{ name := "a", attr := some "a", freetext := true },
         { name := "b", attr := some "b", freetext := true }] "\"hello\"" =
        .ok (Q.or (Q.filter "a__icontains" (.vStr "hello"))
              (Q.filter "b__icontains" (.vStr "hello"))) := by
  refine ⟨?_, by rfl⟩
  intro vs raw hany hwf
  have hne : freetext_expected vs (stripDoubleQuotes raw) ≠ [] := by
    obtain ⟨v, hv, hfv⟩ := List.any_eq_true.mp hany
    simp only [freetext_expected, ne_eq, List.map_eq_nil_iff, List.filter_eq_nil_iff]
    push_neg
    exact ⟨v, hv, by simp [hfv]⟩
  rw [freetext_as_q, if_neg (by simp [hany])]
  show (match freetext_qs vs (stripDoubleQuotes raw) with
        | Except.error e => Except.error e
        | Except.ok [] => Except.error QErr.typeError
        | Except.ok (q :: qs) => Except.ok (qs.foldl Q.or q)) =
      Except.ok (foldOr (freetext_expected vs (stripDoubleQuotes raw)))
  rw [freetext_qs_ok vs (stripDoubleQuotes raw) hwf]
  rcases hexp : freetext_expected vs (stripDoubleQuotes raw) with _ | ⟨q, qs⟩
  · exact absurd hexp hne
  · simp [foldOr]

/-- Witness for C7: the general conjunct at the two-freetext-field
registry of the claim's example. -/
theorem C7_witness :
    freetext_as_q
        [{ name := "a", attr := some "a", freetext := true },
         { name := "b", attr := some "b", freetext := true }] "\"hello\"" =
      .ok (foldOr (freetext_expected
        [{ name := "a", attr := some "a", freetext := true },
         { name := "b", attr := some "b", freetext := true }]
        (stripDoubleQuotes "\"hello\""))) :=
  C7_freetext_or_of_contains.1
    [{ name := "a", attr := some "a", freetext := true },
     { name := "b", attr := some "b", freetext := true }] "\"hello\""
    (by rfl)
    (by
      intro v hv hf
      cases hv with
      | head => exact ⟨rfl, rfl⟩
      | tail _ h =>
        cases h with
        | head => exact ⟨rfl, rfl⟩
        | tail _ h => cases h)

/-- C8: a free-text clause against a registry with no freetext-flagged
field fails with the distinct, catchable configuration failure (the
`assert any(v.freetext ..)` at the top of `freetext_as_q`), not with
success and not by corrupting the compilation; the whole `parse` call
surfaces it. -/
theorem C8_no_freetext_fields_is_error :
    (∀ (vs : List Variable) (token : String),
        vs.any (fun v => v.freetext) = false →
        freetext_as_q vs token = .error .assertionError)
    ∧ Query.parse [Variable.make "price"] "\"hello\"" = .error .assertionError := by
  refine ⟨?_, by rfl⟩
  intro vs token h
  simp [freetext_as_q, h]

/-- Witness for C8: the single-field registry `price` (not freetext). -/
theorem C8_witness :
    freetext_as_q [Variable.make "price"] "\"hello\"" = .error .assertionError :=
  C8_no_freetext_fields_is_error.1 [Variable.make "price"] "\"hello\"" (by rfl)

/-- C9 counterexample: the claim fails for a field whose operator map
handles `=` but whose attribute path is absent — there both `price != 5`
and `price = 5` compile to the identity `Q()` (the early `attr is None`
return precedes the negation), so the negated statement is not the
logical complement of the base one. -/
theorem C9_counterexample :
    Query.parse [{ name := "price", attr := none }] "price != 5" = .ok Q.empty
    ∧ Query.parse [{ name := "price", attr := none }] "price = 5" = .ok Q.empty
    ∧ Q.empty ≠ Q.not Q.empty :=
  ⟨by rfl, by rfl, by decide⟩

/-- C9 (amended): for a field using the default value-to-predicate
conversion whose attribute path is present, the negated operators
compile to exactly the logical complement of the base ones: `!=`
against any value yields `NOT` of what `=` yields (including the
error cases, which agree), and likewise `!:` versus `:`; concretely
`price != 5` parses to `NOT` of what `price = 5` parses to. -/
theorem C9_negation_is_complement_amended :
    (∀ (var : VariableCore) (a : String) (value : PValue),
        var.attr = some a →
        default_value_to_q var "!=" value =
          Except.map (Option.map Q.not) (default_value_to_q var "=" value)
        ∧ default_value_to_q var "!:" value =
          Except.map (Option.map Q.not) (default_value_to_q var ":" value))
    ∧ Query.parse [Variable.make "price"] "price != 5" =
        Except.map Q.not (Query.parse [Variable.make "price"] "price = 5") := by
  refine ⟨?_, by rfl⟩
  intro var a value hattr
  have key : ∀ nop bop : String,
      ((nop = "!=" ∧ bop = "=") ∨ (nop = "!:" ∧ bop = ":")) →
      default_value_to_q var nop value =
        Except.map (Option.map Q.not) (default_value_to_q var bop value) := by
    rintro nop bop (⟨h1, h2⟩ | ⟨h1, h2⟩) <;> subst h1 <;> subst h2 <;>
      simp only [default_value_to_q, hattr,
        show ("!=" : String).drop 1 = "=" from rfl,
        show ("!:" : String).drop 1 = ":" from rfl] <;>
      rcases value with s | s | n | s | ⟨y, m, d⟩ | a' <;>
      (try cases hnull : (strToLower s == "null")) <;>
      rcases h : var.op_to_q_op "=" with _ | sfx <;>
      rcases h2 : var.op_to_q_op ":" with _ | sfx2 <;>
      simp_all [Except.map]
  exact ⟨key "!=" "=" (Or.inl ⟨rfl, rfl⟩), key "!:" ":" (Or.inr ⟨rfl, rfl⟩)⟩

/-- Witness for C9's amended theorem: the default `price` field at the
value `5`. -/
theorem C9_amended_witness :
    default_value_to_q (Variable.make "price").toVariableCore "!=" (.int 5) =
      Except.map (Option.map Q.not)
        (default_value_to_q (Variable.make "price").toVariableCore "=" (.int 5)) :=
  ((C9_negation_is_complement_amended.1 (Variable.make "price").toVariableCore "price"
      (.int 5) (by rfl)).1)

/-- C10: a registered field whose attribute path is absent compiles a
binary statement to the identity match-everything `Q()` with no error,
under both the default conversion (any operator) and the
reference-lookup conversion (its `=` operator); the whole `parse` call
therefore silently drops the clause. -/
theorem C10_absent_attr_silently_matches_everything :
    (∀ (var : VariableCore) (op : String) (value : PValue),
        var.attr = none → default_value_to_q var op value = .ok (some Q.empty))
    ∧ (∀ (db : String → PValue → Option Nat) (var : VariableCore) (value : PValue),
        var.attr = none → choice_queryset_value_to_q db var "=" value = .ok (some Q.empty))
    ∧ Query.parse [{ name := "x", attr := none }] "x = 5" = .ok Q.empty := by
  refine ⟨?_, ?_, by rfl⟩
  · intro var op value h
    simp [default_value_to_q, h]
  · intro db var value h
    simp [choice_queryset_value_to_q, h]

/-- Witness for C10: an attribute-less field under both conversions. -/
theorem C10_witness :
    default_value_to_q { name := "x", attr := none } ">" (.int 7) = .ok (some Q.empty)
    ∧ choice_queryset_value_to_q (fun _ _ => none) { name := "x", attr := none } "="
        (.ident "v") = .ok (some Q.empty) :=
  ⟨C10_absent_attr_silently_matches_everything.1 { name := "x", attr := none } ">"
      (.int 7) rfl,
   C10_absent_attr_silently_matches_everything.2.1 (fun _ _ => none)
      { name := "x", attr := none } (.ident "v") rfl⟩
